import Mathlib

/-!
Shallow embedding of the rule-resolution and validation-evaluation engine of
`src/src/formalizer.ts` (the `formalize` library), together with theorems
settling the spec claims about it.

Modelling conventions:
* field values are modelled as strings (the values form inputs produce);
* a JS object field that may be absent is an `Option`, with `none` for an
  absent (or `undefined`) key;
* machinery that can `throw` returns `Except String`, carrying the exact
  message text built by the source;
* the module-level `validator` variable is written by `loadValidatorDependency`
  before every read (`validator[...]` is only read right after a load call
  returned `true`), so the loaded library is threaded locally rather than as
  global state.
-/

namespace Formalizer

set_option maxRecDepth 4000

/-- The map of current form values (field name to value), `FormData` in the source. -/
abbrev FormData := List (String × String)

/-- An options object: the `formData` key (if present and truthy) plus any
further keys. Source interface `Options` (lines 111-114). -/
structure Options where
  formData : Option FormData
  extra : List (String × String)
deriving Repr, DecidableEq

/-- A validator predicate `(value, options) => boolean` (source line 63). -/
abbrev ValidatorFunction := String → Options → Bool

/-- A JS value sitting in a config object field named `options`: either
`null` or an object. An absent field is `Option OptionsValue = none`. -/
inductive OptionsValue where
  | null
  | obj (o : Options)
deriving Repr, DecidableEq

/-- A JS value in the `validator` field of a config object: a string name,
a function, or a value of any other runtime type. -/
inductive ValidatorField where
  | str (s : String)
  | fn (f : ValidatorFunction)
  | other

/-- An `InputValidationConfig` object (source lines 65-70). `none` models an
absent key. `extraKeys` records whether the object carries any keys beyond
the four recognised ones, which matters only for the
`Object.keys(...).length === 0` test on line 504. -/
structure InputValidationConfig where
  errorMessage : Option String := none
  negate : Option Bool := none
  options : Option OptionsValue := none
  validator : Option ValidatorField := none
  extraKeys : Bool := false

/-- A JS value stored in the `GlobalValidators` registry under some key. -/
inductive RegistryValue where
  | str (s : String)
  | obj (c : InputValidationConfig)
  | arr
  | null
  | prim (truthy : Bool)

/-- The global registry of validators: key to stored value. -/
abbrev Registry := List (String × RegistryValue)

/-- Reading `GlobalValidators[property]`; an absent key yields `undefined`
(`none`). -/
def lookupReg (r : Registry) (k : String) : Option RegistryValue :=
  (r.find? (fun p => p.1 == k)).map (fun p => p.2)

/-- JS truthiness of a registry slot, as tested by
`if (GlobalValidators[property])` on line 437. `undefined`, `null`, the empty
string and falsy primitives are falsy; every object (arrays included) is truthy. -/
def regTruthy : Option RegistryValue → Bool
  | none => false
  | some (.str s) => s != ""
  | some (.obj _) => true
  | some .arr => true
  | some .null => false
  | some (.prim t) => t

/-- The shape test on registry values (lines 439-444):
`v === null || (typeof v !== 'string' && typeof v !== 'object') || Array.isArray(v)`. -/
def regBadType : RegistryValue → Bool
  | .str _ => false
  | .obj _ => false
  | .arr => true
  | .null => true
  | .prim _ => true

/-- A JS value stored in the validation object under some rule key
(`InputValidationConfig | string` in the source types, but any runtime
value can arrive). -/
inductive LocalValue where
  | str (s : String)
  | obj (c : InputValidationConfig)
  | arr
  | null
  | undefined
  | prim

/-- The shape test on a local value (lines 492-500):
`v === null || v === undefined || Array.isArray(v)`. -/
def localBadType : LocalValue → Bool
  | .null => true
  | .undefined => true
  | .arr => true
  | _ => false

/-- The `Object.keys(valConfig).length === 0` test on line 504. The keys of
a string are its character indices; the keys of a number or boolean are `[]`. -/
def keysEmpty : LocalValue → Bool
  | .str s => s.length == 0
  | .obj c =>
      c.errorMessage.isNone && c.negate.isNone && c.options.isNone &&
        c.validator.isNone && !c.extraKeys
  | .prim => true
  | _ => false

/-- The pluggable validator library: its function-valued exports, looked up
by name. -/
structure ValidatorLib where
  lookup : String → Option ValidatorFunction

/-- What the host environment supplies to the two `require` calls in
`loadValidatorDependency`: the validator module itself (`none` when the
module resolves to `undefined`, as in the repository tests that mock it
away) and the `version` field of `validator/package.json`. -/
structure Env where
  lib : Option ValidatorLib
  pkgVersion : Option String

/-- The default error message constant (source line 61). -/
def DEFAULT_VALIDATION_ERROR_MESSAGE : String := "This field is not valid."

/-- Thrown on lines 428, 445-447, 497-499 and 546-548. -/
def typeErrorMsg : String :=
  "Formalizer: validators must be of string or object type."

/-- Thrown on lines 472-474 when a registry config object carries a
`validator` that is neither a string nor a function. Note that this message
is a fixed constant: it does not mention the rule key. -/
def wrongTypeResolutionMsg : String :=
  "Formalizer: the given validator must be either a string or a function."

/-- Thrown on lines 579-581 when the resolved validator is `undefined`. -/
def missingValidatorMsg (property : String) : String :=
  "Formalizer: cannot find a validator named \"" ++ property ++
    "\". If you are attempting to perform a validation defined by the Validator library, please make sure to have it installed prior."

/-- Thrown on lines 584-586 when the resolved validator is neither a
function nor `undefined`. -/
def notAFunctionMsg (property : String) : String :=
  "Formalizer: unable to execute the \"" ++ property ++
    "\" validation. The given validator is not a function."

/-- `parseInt(s, 10)` on the strings fed to it here: the value of the
leading run of decimal digits, with `none` for `NaN`. -/
def jsParseInt (s : String) : Option Nat :=
  let digits := s.data.takeWhile Char.isDigit
  if digits.isEmpty then none
  else some (digits.foldl (fun n c => 10 * n + (c.toNat - 48)) 0)

/-- Split a character list on a separator character, keeping empty pieces,
like the JS `String.prototype.split` with a one-character separator. -/
def splitOnChar (c : Char) : List Char → List (List Char)
  | [] => [[]]
  | a :: as =>
      let rest := splitOnChar c as
      if a == c then [] :: rest
      else
        match rest with
        | r :: rs => (a :: r) :: rs
        | [] => [[a]]

/-- `validatorVersion.split('.')` (source line 392). -/
def jsSplitDot (s : String) : List String :=
  (splitOnChar '.' s.data).map String.mk

/-- `value.trim()` (source line 568): strip leading and trailing whitespace. -/
def jsTrim (s : String) : String :=
  ⟨(((s.data.dropWhile Char.isWhitespace).reverse).dropWhile Char.isWhitespace).reverse⟩

/-- Source lines 380-403. Reassigns the module-level `validator` variable
from `require('validator')` and reports whether it is loaded; the previous
value of the variable is never read. Note the early return on lines 383-385:
whenever the module loads to a defined value the function returns `true` at
once and the version check below it is never reached. The first component of
the result is the new value of the module variable. -/
def loadValidatorDependency (env : Env) : Except String (Option ValidatorLib × Bool) :=
  let validator := env.lib
  if validator.isSome then
    .ok (validator, true)
  else
    match env.pkgVersion with
    | some validatorVersion =>
        if validatorVersion != "" then
          let versionParts := jsSplitDot validatorVersion
          if (jsParseInt (versionParts.headD "")).elim false (fun n => n < 11) then
            .error ("Formalizer: unsupported version of the validator library found (" ++
              validatorVersion ++ "). Please upgrade to 11.0.0 or higher.")
          else
            .ok (validator, validator.isSome)
        else
          .ok (validator, validator.isSome)
    | none => .ok (validator, validator.isSome)

/-- `validator[name]` right after a load: look a name up in the library. -/
def libLookup (vs : Option ValidatorLib) (name : String) : Option ValidatorFunction :=
  vs.bind (fun l => l.lookup name)

/-- The `validator` slot of a `fieldsToValidate` entry after the local
override merge, as inspected by the `typeof` tests on lines 576-587. -/
inductive MergedValidator where
  | undefined
  | fn (f : ValidatorFunction)
  | other

/-- One entry of `fieldsToValidate` (lines 416-419): a key together with its
fully resolved validation config. -/
structure Field where
  key : String
  errorMessage : String
  negate : Bool
  options : OptionsValue
  validator : MergedValidator

/-- Wrap the resolved `validatorFunction` local variable (possibly still
`undefined`) as a merged-validator slot. -/
def baseValidator : Option ValidatorFunction → MergedValidator
  | some f => .fn f
  | none => .undefined

/-- Source lines 431-516: establish the base config for one key of the
validation object (the local variables `errorMsg`, `negate`, `options`,
`validatorFunction` plus the registry / local resolution paths). -/
def resolveBase (registry : Registry) (env : Env) (formData : FormData)
    (property : String) (localVal : LocalValue) : Except String Field := do
  let defaultOptions : OptionsValue := .obj ⟨some formData, []⟩
  let gv := lookupReg registry property
  if regTruthy gv then
    match gv with
    | some rv =>
        if regBadType rv then
          .error typeErrorMsg
        else
          match rv with
          | .str s => do
              -- lines 450-458: the registry value is a string. Note that the
              -- library lookup uses that string (the error message) as the
              -- name, not the rule key.
              let (vs, loaded) ← loadValidatorDependency env
              let vf := if loaded then libLookup vs s else none
              pure (⟨property, s, false, defaultOptions, baseValidator vf⟩ : Field)
          | .obj propValidator => do
              -- lines 459-486: the registry value is a config object
              let vf ←
                match propValidator.validator with
                | some (.str s) => do
                    let (vs, loaded) ← loadValidatorDependency env
                    pure (if loaded then libLookup vs s else none)
                | some (.fn f) => pure (some f)
                | some .other => .error wrongTypeResolutionMsg
                | none => .error wrongTypeResolutionMsg
              let errorMsg :=
                match propValidator.errorMessage with
                | some m => if m != "" then m else DEFAULT_VALIDATION_ERROR_MESSAGE
                | none => DEFAULT_VALIDATION_ERROR_MESSAGE
              let negate := propValidator.negate.getD false
              let options := propValidator.options.getD defaultOptions
              pure (⟨property, errorMsg, negate, options, baseValidator vf⟩ : Field)
          | _ => .error typeErrorMsg
    | none => .error typeErrorMsg
  else
    -- lines 487-516: no truthy global entry for this key
    if localBadType localVal then
      .error typeErrorMsg
    else if keysEmpty localVal then do
      let (vs, loaded) ← loadValidatorDependency env
      let vf := if loaded then libLookup vs property else none
      pure (⟨property, DEFAULT_VALIDATION_ERROR_MESSAGE, false, defaultOptions,
        baseValidator vf⟩ : Field)
    else
      match localVal with
      | .obj c =>
          match c.validator with
          | some (.str s) => do
              let (vs, loaded) ← loadValidatorDependency env
              let vf := if loaded then libLookup vs s else none
              pure (⟨property, DEFAULT_VALIDATION_ERROR_MESSAGE, false, defaultOptions,
                baseValidator vf⟩ : Field)
          | _ =>
              pure (⟨property, DEFAULT_VALIDATION_ERROR_MESSAGE, false, defaultOptions,
                .undefined⟩ : Field)
      | _ =>
          pure (⟨property, DEFAULT_VALIDATION_ERROR_MESSAGE, false, defaultOptions,
            .undefined⟩ : Field)

/-- Line 532-539: when the local value is an object whose `validator` field
holds a string, `validate` deletes that field from the object (the string
was already resolved, or discarded, by the base step). All other values are
left unchanged. -/
def deleteStrValidator : LocalValue → LocalValue
  | .obj c =>
      match c.validator with
      | some (.str _) => .obj { c with validator := none }
      | _ => .obj c
  | lv => lv

/-- The spread `{...base, ...local}` on lines 541-544, restricted to the
keys evaluation reads; a key present in the local object wins. The local
`validator` key has already had any string value deleted before the merge. -/
def mergeConfig (base : Field) (c : InputValidationConfig) : Field :=
  { key := base.key
    errorMessage := c.errorMessage.getD base.errorMessage
    negate := c.negate.getD base.negate
    options := c.options.getD base.options
    validator :=
      match c.validator with
      | none => base.validator
      | some (.fn f) => .fn f
      | some (.str _) => .other
      | some .other => .other }

/-- Source lines 528-549: apply the local override to the base config, and
perform the deletion of a string `validator` field (the one mutation of the
caller-supplied validation object). Returns the merged field and the final
local value. A `null` local value reaches line 534 and crashes there with a
runtime type error (`typeof null === 'object'`, but reading a property of
`null` throws); the message below stands in for that host-runtime error. -/
def mergeLocal (base : Field) (localVal : LocalValue) :
    Except String (Field × LocalValue) :=
  match localVal with
  | .str s => .ok ({ base with errorMessage := s }, localVal)
  | .obj _ =>
      match deleteStrValidator localVal with
      | .obj c => .ok (mergeConfig base c, .obj c)
      | lv => .ok (base, lv)
  | .arr => .ok (base, localVal)
  | .null => .error "TypeError: cannot read property validator of null"
  | _ => .error typeErrorMsg

/-- Source lines 431-550: resolve one key of the validation object to a
`fieldsToValidate` entry. Returns the entry together with the final value
of `validation[property]`. -/
def resolveProperty (registry : Registry) (env : Env) (formData : FormData)
    (property : String) (localVal : LocalValue) :
    Except String (Field × LocalValue) := do
  let base ← resolveBase registry env formData property localVal
  mergeLocal base localVal

/-- Lines 560-564: before invoking the predicate, make sure the options
object exists and carries a truthy `formData` key, injecting the current
form values when it does not. -/
def effectiveOptions (o : OptionsValue) (formData : FormData) : Options :=
  match o with
  | .null => ⟨some formData, []⟩
  | .obj ob => if ob.formData.isSome then ob else ⟨some formData, ob.extra⟩

/-- JS truthiness of a string value (`!value` on line 568). -/
def strTruthy (value : String) : Bool := value != ""

/-- Lines 566-592: evaluate one `fieldsToValidate` entry, returning the
`isValid` flag after the negation step. The reserved key `isRequired` uses
the intrinsic emptiness check and never consults the `validator` slot. -/
def fieldOutcome (value : String) (formData : FormData) (f : Field) :
    Except String Bool := do
  let opts := effectiveOptions f.options formData
  let isValid ←
    if f.key == "isRequired" then
      pure (!(!strTruthy value || (jsTrim value).length == 0))
    else
      match f.validator with
      | .fn g => pure (g value opts)
      | .undefined => .error (missingValidatorMsg f.key)
      | .other => .error (notAFunctionMsg f.key)
  pure (if f.negate then !isValid else isValid)

/-- Lines 552-601: the evaluation loop. Rules run in sequence order and the
loop stops at the first entry whose (possibly negated) result is invalid,
returning that entry's key and error message; `none` means valid. -/
def evalFields (value : String) (formData : FormData) :
    List Field → Except String (Option (String × String))
  | [] => .ok none
  | f :: rest => do
      let isValid ← fieldOutcome value formData f
      if isValid then evalFields value formData rest
      else .ok (some (f.key, f.errorMessage))

/-- An `InputValidationByKey` object: the keys of the validation object in
insertion order, each with its stored value. -/
abbrev InputValidationByKey := List (String × LocalValue)

/-- The outcome of the `Object.keys(validation).forEach` resolution pass.
`thrown` keeps the caller-visible state of the validation object at the
moment the exception escaped (earlier entries are already mutated). -/
inductive ResolveResult where
  | done (fields : List Field) (entries : InputValidationByKey)
  | thrown (msg : String) (entries : InputValidationByKey)

/-- The resolution pass over all keys of the validation object. -/
def resolveAll (registry : Registry) (env : Env) (formData : FormData) :
    InputValidationByKey → ResolveResult
  | [] => .done [] []
  | (k, lv) :: rest =>
      match resolveProperty registry env formData k lv with
      | .error m => .thrown m ((k, lv) :: rest)
      | .ok (f, lv') =>
          match resolveAll registry env formData rest with
          | .done fs rest' => .done (f :: fs) ((k, lv') :: rest')
          | .thrown m rest' => .thrown m ((k, lv') :: rest')

/-- The `validation` argument of `validate` as a JS runtime value
(`InputValidation` in the source types is `InputValidationByKey | string`,
but any value can arrive at runtime). -/
inductive InputValidation where
  | byKey (entries : InputValidationByKey)
  | str (s : String)
  | null
  | undefined
  | arr
  | prim

/-- The shape test on the `validation` argument itself (lines 422-429):
`null`, `undefined`, arrays and non-string non-object primitives throw. -/
def argBadType : InputValidation → Bool
  | .null => true
  | .undefined => true
  | .arr => true
  | .prim => true
  | _ => false

/-- `Object.keys(validation)` with the corresponding values. For a string
the keys are its character indices and the values its one-character
substrings. -/
def argEntries : InputValidation → InputValidationByKey
  | .byKey entries => entries
  | .str s => s.data.enum.map (fun p => (toString p.1, .str (String.singleton p.2)))
  | _ => []

/-- Put the final entries back into the shape of the original argument (the
mutation on line 538 is only observable through an object argument). -/
def rebuildArg (orig : InputValidation) (entries : InputValidationByKey) :
    InputValidation :=
  match orig with
  | .byKey _ => .byKey entries
  | v => v

/-- Source lines 411-602: the `validate` entry point. The first component is
the returned value (`none` for valid, `some (key, message)` for the first
unmet rule) or the thrown error; the second component is the caller-visible
final state of the `validation` argument, which `validate` mutates. -/
def validate (registry : Registry) (env : Env) (value : String)
    (validation : InputValidation) (formData : FormData) :
    Except String (Option (String × String)) × InputValidation :=
  if argBadType validation then
    (.error typeErrorMsg, validation)
  else
    match resolveAll registry env formData (argEntries validation) with
    | .thrown m entries' => (.error m, rebuildArg validation entries')
    | .done fields entries' =>
        (evalFields value formData fields, rebuildArg validation entries')

/-- The object `{}`, as produced for a bare string entry. -/
def emptyInputValidationConfig : InputValidationConfig := {}

/-- Source lines 156-163 of `useFormInput`: a bare string entry `v` is
normalized to the object `{[v]: {}}` before `validate` is invoked; any
other entry is passed through unchanged. -/
def normalizeEntry : InputValidation → InputValidation
  | .str s => .byKey [(s, .obj emptyInputValidationConfig)]
  | v => v

/-- The default contents of the `GlobalValidators` registry (lines 55-59). -/
def GlobalValidators : Registry := [("isRequired", .str "This field is required.")]

/-- A demonstration library for the concrete theorems below: one pluggable
predicate named `isEmail`. -/
def demoLib : ValidatorLib :=
  ⟨fun name => if name == "isEmail" then some (fun v _ => v == "a@b.com") else none⟩

/-! ### Helper lemmas -/

theorem exceptOkBind {ε α β : Type} (a : α) (g : α → Except ε β) :
    (Except.ok a >>= g) = g a := rfl

theorem exceptErrorBind {ε α β : Type} (m : ε) (g : α → Except ε β) :
    ((Except.error m : Except ε α) >>= g) = .error m := rfl

theorem stringDataAppend (s t : String) : (s ++ t).data = s.data ++ t.data := rfl

theorem stringLengthEqZero (s : String) : s.length = 0 ↔ s = "" := by
  cases s with
  | mk data =>
      simp only [String.length]
      constructor
      · intro h
        have : data = [] := List.length_eq_zero.mp h
        simp [this]
      · intro h
        have : data = [] := by
          have := congrArg String.data h
          simpa using this
        simp [this]

theorem mergeLocalSnd {base : Field} {lv lv' : LocalValue} {f : Field}
    (h : mergeLocal base lv = .ok (f, lv')) : lv' = deleteStrValidator lv := by
  cases lv with
  | str s => simp only [mergeLocal] at h; cases h; rfl
  | obj c =>
      cases hc : c.validator with
      | none => simp only [mergeLocal, deleteStrValidator, hc] at h ⊢; cases h; rfl
      | some vf =>
          cases vf with
          | str s => simp only [mergeLocal, deleteStrValidator, hc] at h ⊢; cases h; rfl
          | fn g => simp only [mergeLocal, deleteStrValidator, hc] at h ⊢; cases h; rfl
          | other => simp only [mergeLocal, deleteStrValidator, hc] at h ⊢; cases h; rfl
  | arr => simp only [mergeLocal] at h; cases h; rfl
  | null => simp only [mergeLocal] at h; cases h
  | undefined => simp only [mergeLocal] at h; cases h
  | prim => simp only [mergeLocal] at h; cases h

theorem resolvePropertySnd {registry : Registry} {env : Env} {fd : FormData}
    {k : String} {lv lv' : LocalValue} {f : Field}
    (h : resolveProperty registry env fd k lv = .ok (f, lv')) :
    lv' = deleteStrValidator lv := by
  unfold resolveProperty at h
  cases hb : resolveBase registry env fd k lv with
  | error m => rw [hb, exceptErrorBind] at h; cases h
  | ok base =>
      rw [hb, exceptOkBind] at h
      exact mergeLocalSnd h

theorem resolveAllDoneEntries (registry : Registry) (env : Env) (fd : FormData) :
    ∀ (entries : InputValidationByKey) (fields : List Field)
      (entries' : InputValidationByKey),
      resolveAll registry env fd entries = .done fields entries' →
      entries' = entries.map (fun p => (p.1, deleteStrValidator p.2)) := by
  intro entries
  induction entries with
  | nil =>
      intro fields entries' h
      simp only [resolveAll] at h
      cases h
      simp
  | cons p rest ih =>
      intro fields entries' h
      obtain ⟨k, lv⟩ := p
      simp only [resolveAll] at h
      cases hrp : resolveProperty registry env fd k lv with
      | error m => rw [hrp] at h; cases h
      | ok out =>
          obtain ⟨f, lv'⟩ := out
          rw [hrp] at h
          cases hra : resolveAll registry env fd rest with
          | done fs rest' =>
              rw [hra] at h
              cases h
              simp only [List.map]
              rw [resolvePropertySnd hrp, ih _ _ hra]
          | thrown m rest' => rw [hra] at h; cases h

/-! ### Claim theorems -/

/-- Claim C1: the spec says that when the pluggable predicate library is
present with a declared major version below 11, the first use of a
library-backed predicate raises the unsupported-version error and the
library reference is discarded. The code does the opposite: because of the
early return on lines 383-385, a successfully loaded library is reported
loaded at once and the version check is dead code, so with version `1.0.0`
the load succeeds and a library-backed predicate runs normally. (The check
only fires in the state the repository test manufactures, where the module
itself resolves to `undefined` while its `package.json` is still readable.) -/
theorem versionGateSkippedWhenLibraryLoads :
    loadValidatorDependency ⟨some demoLib, some "1.0.0"⟩ = .ok (some demoLib, true) ∧
    (validate [] ⟨some demoLib, some "1.0.0"⟩ "a@b.com"
        (.byKey [("isEmail", .obj {})]) []).1 = .ok none ∧
    loadValidatorDependency ⟨none, some "1.0.0"⟩ =
      .error "Formalizer: unsupported version of the validator library found (1.0.0). Please upgrade to 11.0.0 or higher." :=
  ⟨rfl, rfl, rfl⟩

/-- Claim C2: the spec says that a string-valued registry entry for key `K`
resolves the predicate to the pluggable-library lookup of the name `K`. The
code instead looks the predicate up under the registry string itself (the
error message, line 453), so a registry entry `isEmail: "Please enter a
valid email."` never finds the library predicate `isEmail` and evaluation
throws the missing-validator error, even though the library exports a
predicate under the key name. The error message and negate parts of the
claim do hold (conjunct three shows the message used is the registry string
once a local validator makes the rule executable). -/
theorem registryStringLooksUpMessageNotKey :
    (libLookup (some demoLib) "isEmail").isSome = true ∧
    (validate [("isEmail", .str "Please enter a valid email.")]
        ⟨some demoLib, some "13.0.0"⟩ "not-an-email"
        (.byKey [("isEmail", .obj {})]) []).1 = .error (missingValidatorMsg "isEmail") ∧
    (validate [("isEmail", .str "Please enter a valid email.")]
        ⟨some demoLib, some "13.0.0"⟩ "not-an-email"
        (.byKey [("isEmail", .obj { validator := some (.fn (fun v _ => v == "a@b.com")) })])
        []).1 = .ok (some ("isEmail", "Please enter a valid email.")) :=
  ⟨rfl, rfl, rfl⟩

/-- Claim C3: the spec says a registry value that is `null` (or an array, or
neither string nor object) fails fast with a type-config error and never
silently falls back to another resolution path. Because the outer guard on
line 437 tests truthiness, a `null` registry value skips the type check
(line 440 is dead code) and resolution silently falls through to the local
path: with the pluggable library exporting `foo`, the rule validates
normally and no error is ever thrown. -/
theorem nullRegistryValueFallsThrough :
    (validate [("foo", .null)]
        ⟨some ⟨fun n => if n == "foo" then some (fun v _ => v != "") else none⟩, none⟩
        "x" (.byKey [("foo", .obj {})]) []).1 = .ok none ∧
    (validate [("foo", .null)]
        ⟨some ⟨fun n => if n == "foo" then some (fun v _ => v != "") else none⟩, none⟩
        "" (.byKey [("foo", .obj {})]) []).1 =
      .ok (some ("foo", DEFAULT_VALIDATION_ERROR_MESSAGE)) :=
  ⟨rfl, rfl⟩

/-- Claim C4: in the evaluation loop, rules run strictly in sequence order;
when every rule before position `i` passes and the rule at position `i`
fails, the outcome is exactly the key and error message of that rule, so the
failure of any later rule never surfaces and evaluation stops there. -/
theorem firstFailingRuleWins (value : String) (fd : FormData)
    (fields : List Field) (i : Nat) (h : i < fields.length)
    (hpre : ∀ j (hj : j < i),
      fieldOutcome value fd (fields.get ⟨j, Nat.lt_trans hj h⟩) = .ok true)
    (hfail : fieldOutcome value fd (fields.get ⟨i, h⟩) = .ok false) :
    evalFields value fd fields =
      .ok (some ((fields.get ⟨i, h⟩).key, (fields.get ⟨i, h⟩).errorMessage)) := by
  induction fields generalizing i with
  | nil => exact absurd h (Nat.not_lt_zero i)
  | cons f rest ih =>
      cases i with
      | zero =>
          simp only [List.get] at hfail ⊢
          simp only [evalFields]
          rw [hfail, exceptOkBind]
          simp
      | succ j =>
          have hf : fieldOutcome value fd f = .ok true := by
            have := hpre 0 (Nat.succ_pos j)
            simpa using this
          have hj' : j < rest.length := Nat.lt_of_succ_lt_succ h
          simp only [List.get] at hfail ⊢
          simp only [evalFields]
          rw [hf, exceptOkBind]
          simp only [if_true, ite_true]
          exact ih j hj'
            (fun j' hj'' => by
              have := hpre (j' + 1) (Nat.succ_lt_succ hj'')
              simpa using this)
            hfail

/-- Witness for C4 at a concrete two-rule sequence in which both rules fail:
the outcome is the first rule's key and message, never the second's. -/
theorem firstFailingRuleWinsWitness :
    evalFields "v" []
      [⟨"A", "msgA", false, .obj ⟨none, []⟩, .fn (fun _ _ => false)⟩,
       ⟨"B", "msgB", false, .obj ⟨none, []⟩, .fn (fun _ _ => false)⟩] =
      .ok (some ("A", "msgA")) :=
  firstFailingRuleWins "v" []
    [⟨"A", "msgA", false, .obj ⟨none, []⟩, .fn (fun _ _ => false)⟩,
     ⟨"B", "msgB", false, .obj ⟨none, []⟩, .fn (fun _ _ => false)⟩]
    0 (Nat.succ_pos 1) (fun j hj => absurd hj (Nat.not_lt_zero j)) rfl

/-- Claim C5: for a rule with `negate = true` whose resolved validator is the
predicate `P`, the rule is invalid exactly when `P` returns `true` and valid
exactly when `P` returns `false`; its outcome is the exact complement of the
same rule with `negate = false`. (The reserved key `isRequired` never invokes
the resolved validator, hence the key hypothesis.) -/
theorem negationExactComplement (P : ValidatorFunction) (key msg : String)
    (o : OptionsValue) (value : String) (fd : FormData) (hk : key ≠ "isRequired") :
    (evalFields value fd [⟨key, msg, true, o, .fn P⟩] = .ok (some (key, msg)) ↔
        P value (effectiveOptions o fd) = true) ∧
    (evalFields value fd [⟨key, msg, true, o, .fn P⟩] = .ok none ↔
        P value (effectiveOptions o fd) = false) ∧
    (evalFields value fd [⟨key, msg, true, o, .fn P⟩] = .ok none ↔
        evalFields value fd [⟨key, msg, false, o, .fn P⟩] = .ok (some (key, msg))) ∧
    (evalFields value fd [⟨key, msg, true, o, .fn P⟩] = .ok (some (key, msg)) ↔
        evalFields value fd [⟨key, msg, false, o, .fn P⟩] = .ok none) := by
  have hk' : (key == "isRequired") = false := by simp [hk]
  cases hP : P value (effectiveOptions o fd) <;>
    simp [evalFields, fieldOutcome, hk', hP, exceptOkBind]

/-- Witness for C5: a concrete negated rule whose predicate returns `true`
on the given value is reported invalid with its key and message. -/
theorem negationExactComplementWitness :
    evalFields "z" [] [⟨"k", "m", true, .obj ⟨none, []⟩, .fn (fun v _ => v == "z")⟩] =
      .ok (some ("k", "m")) :=
  (negationExactComplement (fun v _ => v == "z") "k" "m" (.obj ⟨none, []⟩) "z" []
    (by decide)).1.mpr rfl

/-- Claim C6: the reserved key `isRequired` has intrinsic semantics that
ignore the resolved validator slot (the universally quantified field below
carries an arbitrary validator): with `negate = false` the value is invalid
exactly when it is falsy (the empty string) or trims to the empty string.
Concretely, value `""` under rule `["isRequired"]` with the registry default
message yields `("isRequired", "This field is required.")`; under
`[{isRequired: {negate: true}}]` value `"test"` is invalid and value `""`
is valid. -/
theorem isRequiredIntrinsicSemantics :
    (∀ (f : Field) (value : String) (fd : FormData),
        f.key = "isRequired" → f.negate = false →
        (fieldOutcome value fd f = .ok false ↔ (value = "" ∨ jsTrim value = ""))) ∧
    (validate GlobalValidators ⟨none, none⟩ "" (normalizeEntry (.str "isRequired")) []).1 =
      .ok (some ("isRequired", "This field is required.")) ∧
    (validate GlobalValidators ⟨none, none⟩ "test"
        (.byKey [("isRequired", .obj { negate := some true })]) []).1 =
      .ok (some ("isRequired", "This field is required.")) ∧
    (validate GlobalValidators ⟨none, none⟩ ""
        (.byKey [("isRequired", .obj { negate := some true })]) []).1 = .ok none := by
  refine ⟨?_, rfl, rfl, rfl⟩
  intro f value fd hkey hneg
  simp [fieldOutcome, hkey, hneg, strTruthy, exceptOkBind, stringLengthEqZero,
    Bool.or_eq_true, bne, pure, Except.pure]
  tauto

/-- Witness for C6: a field for the key `isRequired` whose validator slot is
a non-function is still evaluated by the intrinsic rule, and the empty
string is invalid. -/
theorem isRequiredIntrinsicSemanticsWitness :
    fieldOutcome "" [] ⟨"isRequired", "m", false, .obj ⟨none, []⟩, .other⟩ = .ok false :=
  (isRequiredIntrinsicSemantics.1 ⟨"isRequired", "m", false, .obj ⟨none, []⟩, .other⟩
    "" [] rfl rfl).mpr (Or.inl rfl)

/-- Counterexample for C7: lines 560-564 inject the current form values only
when the resolved options are missing or lack a truthy `formData`; when the
resolved options already carry a `formData` value, it is passed through
unchanged. With current form data `[("a", "1")]` and resolved options whose
`formData` is the stale map `[("stale", "9")]`, the options object passed to
the predicate carries the stale map, not the current form values, and an
actual invocation during evaluation observes exactly that stale map. -/
theorem formDataPassedThroughWhenPresent :
    (effectiveOptions (.obj ⟨some [("stale", "9")], []⟩) [("a", "1")]).formData =
      some [("stale", "9")] ∧
    (effectiveOptions (.obj ⟨some [("stale", "9")], []⟩) [("a", "1")]).formData ≠
      some [("a", "1")] ∧
    fieldOutcome "v" [("a", "1")]
        ⟨"k", "m", false, .obj ⟨some [("stale", "9")], []⟩,
          .fn (fun _ o => o.formData == some [("stale", "9")])⟩ = .ok true :=
  ⟨rfl, by decide, rfl⟩

/-- Claim C7 as amended: every predicate invocation receives exactly
`effectiveOptions f.options formData` as its options object (third
conjunct), and that object always contains a `formData` key (fourth
conjunct). When the resolved options are `null` or an object whose
`formData` key is absent, the engine injects the complete current form
values map (first conjunct); but when the resolved options already carry a
`formData` value, the options object is passed through unchanged, so the
predicate sees the supplied map rather than the current form values
(second conjunct). -/
theorem formDataInjectionAmended :
    (∀ (o : OptionsValue) (fd : FormData),
        (o = .null ∨ ∃ extra, o = .obj ⟨none, extra⟩) →
        (effectiveOptions o fd).formData = some fd) ∧
    (∀ (ob : Options) (fd : FormData),
        ob.formData.isSome → effectiveOptions (.obj ob) fd = ob) ∧
    (∀ (f : Field) (P : ValidatorFunction) (value : String) (fd : FormData),
        f.validator = .fn P → f.key ≠ "isRequired" →
        fieldOutcome value fd f =
          .ok (if f.negate then !P value (effectiveOptions f.options fd)
               else P value (effectiveOptions f.options fd))) ∧
    (∀ (o : OptionsValue) (fd : FormData), (effectiveOptions o fd).formData.isSome) := by
  refine ⟨?_, ?_, ?_, ?_⟩
  · rintro o fd (rfl | ⟨extra, rfl⟩) <;> simp [effectiveOptions]
  · intro ob fd h
    simp [effectiveOptions, h]
  · intro f P value fd hv hk
    have hk' : (f.key == "isRequired") = false := by simp [hk]
    simp [fieldOutcome, hk', hv, exceptOkBind, pure, Except.pure]
  · intro o fd
    cases o with
    | null => simp [effectiveOptions]
    | obj ob =>
        cases hob : ob.formData with
        | none => simp [effectiveOptions, hob]
        | some m => simp [effectiveOptions, hob]

/-- Witness for the amended C7: with `options: null` the injected options
carry the current form data and a predicate testing for `formData` succeeds;
with options already carrying a `formData` map, the object is passed through
unchanged. -/
theorem formDataInjectionAmendedWitness :
    (effectiveOptions .null [("a", "1")]).formData = some [("a", "1")] ∧
    effectiveOptions (.obj ⟨some [("stale", "9")], []⟩) [("a", "1")] =
      ⟨some [("stale", "9")], []⟩ ∧
    fieldOutcome "v" [("a", "1")]
        ⟨"k", "m", false, .null, .fn (fun _ o => o.formData.isSome)⟩ = .ok true := by
  refine ⟨formDataInjectionAmended.1 .null [("a", "1")] (Or.inl rfl),
    formDataInjectionAmended.2.1 ⟨some [("stale", "9")], []⟩ [("a", "1")] rfl, ?_⟩
  rw [formDataInjectionAmended.2.2.1 ⟨"k", "m", false, .null,
    .fn (fun _ o => o.formData.isSome)⟩ (fun _ o => o.formData.isSome) "v" [("a", "1")]
    rfl (by decide)]
  rfl

/-- Claim C8: a rule-set entry given as the bare string `R` is normalized to
the object `{R: {}}` before `validate` runs, so the two evaluate to the same
outcome for every registry, environment, value and form data. -/
theorem bareStringEquivEmptyConfig (registry : Registry) (env : Env)
    (R value : String) (fd : FormData) :
    validate registry env value (normalizeEntry (.str R)) fd =
      validate registry env value (.byKey [(R, .obj emptyInputValidationConfig)]) fd := rfl

/-- Counterexample for C9: when a Global Rule Registry config object carries
a `validator` that is neither a string nor a function, resolution throws the
fixed message of lines 472-474, and the offending key `myRule` does not
occur in that message. -/
theorem wrongTypeMessageOmitsKeyAtResolution :
    (validate [("myRule", .obj { validator := some .other })] ⟨none, none⟩ "x"
        (.byKey [("myRule", .obj {})]) []).1 = .error wrongTypeResolutionMsg ∧
    ¬ ("myRule".data <:+: wrongTypeResolutionMsg.data) :=
  ⟨rfl, by decide⟩

/-- Claim C9 as amended: the wrong-predicate-type error raised at evaluation
time (a resolved validator that is neither a function nor `undefined`) has a
message that names the offending rule key; but the wrong-predicate-type
error raised at resolution time, for a registry config whose `validator`
field is neither a string nor a function, is the fixed message
`"Formalizer: the given validator must be either a string or a function."`,
which does not name the key. -/
theorem wrongTypeMessagesAmended :
    (∀ (f : Field) (value : String) (fd : FormData),
        f.validator = .other → f.key ≠ "isRequired" →
        fieldOutcome value fd f = .error (notAFunctionMsg f.key) ∧
          f.key.data <:+: (notAFunctionMsg f.key).data) ∧
    (∀ (registry : Registry) (env : Env) (fd : FormData) (k : String)
        (c : InputValidationConfig) (lv : LocalValue),
        lookupReg registry k = some (.obj c) → c.validator = some .other →
        resolveProperty registry env fd k lv = .error wrongTypeResolutionMsg) := by
  constructor
  · intro f value fd hv hk
    have hk' : (f.key == "isRequired") = false := by simp [hk]
    refine ⟨by simp [fieldOutcome, hk', hv], ?_⟩
    exact ⟨"Formalizer: unable to execute the \"".data,
      "\" validation. The given validator is not a function.".data,
      by simp [notAFunctionMsg, stringDataAppend]⟩
  · intro registry env fd k c lv hreg hv
    have hbase : resolveBase registry env fd k lv = .error wrongTypeResolutionMsg := by
      unfold resolveBase
      rw [hreg]
      simp [regTruthy, regBadType, hv, exceptErrorBind]
    unfold resolveProperty
    rw [hbase, exceptErrorBind]

/-- Witness for the amended C9: both error sites at concrete inputs. -/
theorem wrongTypeMessagesAmendedWitness :
    fieldOutcome "v" [] ⟨"k", "m", false, .null, .other⟩ = .error (notAFunctionMsg "k") ∧
    resolveProperty [("g", .obj { validator := some .other })] ⟨none, none⟩ [] "g"
        (.obj {}) = .error wrongTypeResolutionMsg :=
  ⟨(wrongTypeMessagesAmended.1 ⟨"k", "m", false, .null, .other⟩ "v" [] rfl (by decide)).1,
   wrongTypeMessagesAmended.2 [("g", .obj { validator := some .other })] ⟨none, none⟩ []
     "g" { validator := some .other } (.obj {}) rfl rfl⟩

/-- Claim C10: `validate` mutates its caller-supplied validation argument:
whenever the resolution pass completes, every entry whose local value is an
object with a string-valued `validator` field comes back with that field
deleted (first conjunct; `deleteStrValidator` is the identity on every other
entry), and concretely the returned object differs from the one passed in
(second and third conjuncts). -/
theorem validateDeletesStringValidator :
    (∀ (registry : Registry) (env : Env) (value : String) (fd : FormData)
        (entries : InputValidationByKey) (fields : List Field)
        (entries' : InputValidationByKey),
        resolveAll registry env fd entries = .done fields entries' →
        (validate registry env value (.byKey entries) fd).2 =
          .byKey (entries.map (fun p => (p.1, deleteStrValidator p.2)))) ∧
    ((validate [] ⟨none, none⟩ "x"
        (.byKey [("r", .obj { validator := some (.str "isEmail") })]) []).2 =
      .byKey [("r", .obj {})]) ∧
    ((InputValidation.byKey [("r", .obj { validator := some (.str "isEmail") })]) ≠
      .byKey [("r", .obj {})]) := by
  refine ⟨?_, rfl, by simp⟩
  intro registry env value fd entries fields entries' h
  have he := resolveAllDoneEntries registry env fd entries fields entries' h
  subst he
  simp [validate, argBadType, argEntries, h, rebuildArg]

/-- Witness for C10: a concrete run in which the string `validator` field is
deleted from the caller-supplied object. -/
theorem validateDeletesStringValidatorWitness :
    (validate [] ⟨none, none⟩ "v"
        (.byKey [("r", .obj { validator := some (.str "x") })]) []).2 =
      .byKey [("r", .obj {})] := by
  have := validateDeletesStringValidator.1 [] ⟨none, none⟩ "v" []
    [("r", .obj { validator := some (.str "x") })] _ _ rfl
  simpa [deleteStrValidator] using this

end Formalizer
